import Mathlib

set_option maxRecDepth 8192

/-!
Verification of the wopiserver bridge (Python) against its design spec.

Shallow embedding of:
  * `src/src/core/commoniface.py` — Reva-compatible lock codec
    (`genrevalock`, `retrieverevalock`) and lock validation (`validatelock`).
  * `src/poc_src/wopibridge.py` — the CodiMD WOPI bridge: bundle packing
    (`_getattachments`, `_unzipattachments`), the Open handler (`mdOpen`)
    and the Save/Close handler (`_codimdtostorage`).

External-library behaviour that the Python code relies on (json.dumps /
json.loads on the fixed lock schemas, urlsafe base64, the upload-link
regular expression) is embedded as executable Lean functions that implement
the same byte-level transformations.  Remote HTTP calls are modelled by an
environment record supplying each call's response, and every call the
handler issues is recorded in a trace so that claims about which calls are
(or are not) made can be stated.
-/

/-! ## Reva lock record (commoniface.py lines 37-50)

The JSON struct produced by `genrevalock`:
`\x7b"lock_id", "type", "app_name", "user" (always the empty object),
"expiration": \x7b"seconds"\x7d\x7d`.  The `user` sub-object is constant, so it
is not a field of the Lean record. -/

structure RevaLock where
  lock_id : String
  type : Nat
  app_name : String
  /-- the `expiration.seconds` field -/
  expiration : Nat
deriving Repr, DecidableEq

/-- `appname if appname else "wopi"` — Python truthiness of the owner-app
argument of `genrevalock` (line 60): `None` and the empty string are falsy. -/
def pyAppOr : Option String → String
  | none => "wopi"
  | some a => if a = "" then "wopi" else a

deriving instance DecidableEq for Except

/-! ## validatelock (commoniface.py lines 84-95)

`validatelock(filepath, appname, oldlock, op, log)` raises IOError; modelled
as `Except String Unit` where `.error` carries the exception message.  The
`op` and `log` arguments only feed the log line and are dropped.  `oldlock`
is the already-decoded lock (`None` / empty falsy dict modelled as `none`). -/

def validatelock (filepath appname : String) (oldlock : Option RevaLock) :
    Except String Unit :=
  match oldlock with
  | none => .error "File was not locked or lock had expired"
  | some ol =>
    -- line 91-92: oldlock['app_name'] != 'wopi' and appname != 'wopi'
    --   and oldlock['app_name'] and appname and oldlock['app_name'] != appname
    if ol.app_name ≠ "wopi" ∧ appname ≠ "wopi" ∧ ol.app_name ≠ "" ∧ appname ≠ ""
        ∧ ol.app_name ≠ appname then
      .error ("File is locked by " ++ ol.app_name)
    else
      .ok ()

/-- C2: Lock validator decision rule.  For every decoded existing lock,
`validatelock` fails with the lock-conflict error exactly when both the
existing lock's `app_name` and the requesting app name are non-empty, both
differ from "wopi", and they differ from each other; in every other case
with a decoded lock present it succeeds. -/
theorem validatelock_conflict_rule (fp app : String) (ol : RevaLock) :
    (validatelock fp app (some ol) = .error ("File is locked by " ++ ol.app_name)
      ↔ (ol.app_name ≠ "" ∧ app ≠ "" ∧ ol.app_name ≠ "wopi" ∧ app ≠ "wopi"
          ∧ ol.app_name ≠ app))
    ∧ (validatelock fp app (some ol) = .ok ()
      ↔ ¬ (ol.app_name ≠ "" ∧ app ≠ "" ∧ ol.app_name ≠ "wopi" ∧ app ≠ "wopi"
          ∧ ol.app_name ≠ app)) := by
  simp only [validatelock]
  by_cases h : ol.app_name ≠ "wopi" ∧ app ≠ "wopi" ∧ ol.app_name ≠ "" ∧ app ≠ ""
      ∧ ol.app_name ≠ app
  · rw [if_pos h]
    have hperm : ol.app_name ≠ "" ∧ app ≠ "" ∧ ol.app_name ≠ "wopi" ∧ app ≠ "wopi"
        ∧ ol.app_name ≠ app := ⟨h.2.2.1, h.2.2.2.1, h.1, h.2.1, h.2.2.2.2⟩
    simp [hperm]
  · rw [if_neg h]
    have hperm : ¬ (ol.app_name ≠ "" ∧ app ≠ "" ∧ ol.app_name ≠ "wopi" ∧ app ≠ "wopi"
        ∧ ol.app_name ≠ app) :=
      fun hc => h ⟨hc.2.2.1, hc.2.2.2.1, hc.1, hc.2.1, hc.2.2.2.2⟩
    simp [hperm]

/-! ## Decimal rendering and parsing (models json.dumps/loads of the
integer fields of the lock payloads) -/

/-- One decimal digit as a character (`d` is always `< 10` at call sites). -/
def digitChar : Nat → Char
  | 0 => '0' | 1 => '1' | 2 => '2' | 3 => '3' | 4 => '4'
  | 5 => '5' | 6 => '6' | 7 => '7' | 8 => '8' | _ => '9'

/-- Decimal rendering, fuel-indexed so it is structurally recursive (the
first argument bounds the number of digits; `natToDec` supplies enough). -/
def natToDecF : Nat → Nat → List Char
  | 0, n => [digitChar n]
  | f + 1, n =>
    if n < 10 then [digitChar n]
    else natToDecF f (n / 10) ++ [digitChar (n % 10)]

/-- Decimal rendering of a natural number, most significant digit first. -/
def natToDec (n : Nat) : List Char := natToDecF n n

/-- Numeric value of a digit string (used after `spanDigits`). -/
def decValue (l : List Char) : Nat :=
  l.foldl (fun a c => a * 10 + (c.toNat - 48)) 0

/-- `List.span Char.isDigit`, written out so induction is direct. -/
def spanDigits : List Char → List Char × List Char
  | [] => ([], [])
  | c :: t =>
    if c.isDigit then
      let p := spanDigits t
      (c :: p.1, p.2)
    else ([], c :: t)

/-- Parse a nonempty run of decimal digits; `none` when the input does not
start with a digit. -/
def parseDecNat (s : List Char) : Option (Nat × List Char) :=
  let p := spanDigits s
  if p.1 = [] then none else some (decValue p.1, p.2)

theorem digitChar_isDigit (d : Nat) : (digitChar d).isDigit = true := by
  match d with
  | 0 => rfl | 1 => rfl | 2 => rfl | 3 => rfl | 4 => rfl
  | 5 => rfl | 6 => rfl | 7 => rfl | 8 => rfl | n + 9 => rfl

theorem digitChar_toNat (d : Nat) (h : d < 10) : (digitChar d).toNat - 48 = d := by
  interval_cases d <;> rfl

theorem natToDecF_digits (f : Nat) : ∀ n, ∀ c ∈ natToDecF f n, c.isDigit = true := by
  induction f with
  | zero =>
    intro n c hc
    simp only [natToDecF, List.mem_singleton] at hc
    subst hc; exact digitChar_isDigit n
  | succ f ih =>
    intro n c hc
    rw [natToDecF] at hc
    split at hc
    · simp only [List.mem_singleton] at hc
      subst hc; exact digitChar_isDigit n
    · rcases List.mem_append.mp hc with h1 | h2
      · exact ih (n / 10) c h1
      · simp only [List.mem_singleton] at h2
        subst h2; exact digitChar_isDigit (n % 10)

theorem natToDec_digits (n : Nat) : ∀ c ∈ natToDec n, c.isDigit = true :=
  natToDecF_digits n n

theorem decValue_append_digit (l : List Char) (c : Char) :
    decValue (l ++ [c]) = decValue l * 10 + (c.toNat - 48) := by
  simp [decValue, List.foldl_append]

theorem decValue_natToDecF (f : Nat) : ∀ n, n ≤ f → decValue (natToDecF f n) = n := by
  induction f with
  | zero =>
    intro n hn
    have hn0 : n = 0 := by omega
    subst hn0; rfl
  | succ f ih =>
    intro n hn
    rw [natToDecF]
    split
    · rename_i h
      simp only [decValue, List.foldl_cons, List.foldl_nil]
      rw [Nat.zero_mul, Nat.zero_add, digitChar_toNat n h]
    · rename_i h
      rw [decValue_append_digit, ih (n / 10) (by omega),
        digitChar_toNat (n % 10) (by omega)]
      omega

theorem decValue_natToDec (n : Nat) : decValue (natToDec n) = n :=
  decValue_natToDecF n n (Nat.le_refl n)

theorem spanDigits_append (l r : List Char) (hl : ∀ c ∈ l, c.isDigit = true)
    (hr : ∀ c ∈ r.take 1, c.isDigit = false) :
    spanDigits (l ++ r) = (l, r) := by
  induction l with
  | nil =>
    simp only [List.nil_append]
    cases r with
    | nil => rfl
    | cons c t =>
      have : c.isDigit = false := hr c (by simp)
      simp [spanDigits, this]
  | cons c t ih =>
    have hc : c.isDigit = true := hl c (by simp)
    have ih2 := ih (fun x hx => hl x (by simp [hx]))
    simp only [List.cons_append, spanDigits, hc, if_true, List.append_eq, ih2]

theorem parseDecNat_natToDec (n : Nat) (r : List Char)
    (hr : ∀ c ∈ r.take 1, c.isDigit = false) :
    parseDecNat (natToDec n ++ r) = some (n, r) := by
  have hne : natToDec n ≠ [] := by
    rw [natToDec]
    cases n with
    | zero => simp [natToDecF]
    | succ m => rw [natToDecF]; split <;> simp
  simp only [parseDecNat, spanDigits_append _ _ (natToDec_digits n) hr]
  rw [if_neg hne, decValue_natToDec]

/-! ## JSON string escaping (models Python json's py_encode_basestring_ascii
and the string scanner of json.loads, specialised to what the lock payload
schemas need).  With the default `ensure_ascii=True`, `json.dumps` escapes
`"` and `\`, uses the shorthand escapes for the five control characters that
have one, `\u00XX` for the other control characters, and `\uXXXX`
(a surrogate pair for astral code points) for every character above 0x7e. -/

/-- One lowercase hexadecimal digit (`d < 16` at call sites). -/
def hexDig : Nat → Char
  | 0 => '0' | 1 => '1' | 2 => '2' | 3 => '3' | 4 => '4' | 5 => '5'
  | 6 => '6' | 7 => '7' | 8 => '8' | 9 => '9' | 10 => 'a' | 11 => 'b'
  | 12 => 'c' | 13 => 'd' | 14 => 'e' | _ => 'f'

/-- Value of one hexadecimal digit (json.loads accepts both cases). -/
def hexVal (c : Char) : Option Nat :=
  if '0' ≤ c ∧ c ≤ '9' then some (c.toNat - 48)
  else if 'a' ≤ c ∧ c ≤ 'f' then some (c.toNat - 87)
  else if 'A' ≤ c ∧ c ≤ 'F' then some (c.toNat - 55)
  else none

/-- Value of a 4-digit hexadecimal escape body. -/
def hex4val (h1 h2 h3 h4 : Char) : Option Nat :=
  match hexVal h1, hexVal h2, hexVal h3, hexVal h4 with
  | some v1, some v2, some v3, some v4 => some (v1 * 4096 + v2 * 256 + v3 * 16 + v4)
  | _, _, _, _ => none

theorem hexVal_hexDig (d : Nat) (h : d < 16) : hexVal (hexDig d) = some d := by
  interval_cases d <;> rfl

theorem hex4val_hexDig (n : Nat) (h : n < 0x10000) :
    hex4val (hexDig (n / 4096 % 16)) (hexDig (n / 256 % 16))
      (hexDig (n / 16 % 16)) (hexDig (n % 16)) = some n := by
  have e1 := hexVal_hexDig (n / 4096 % 16) (Nat.mod_lt _ (by omega))
  have e2 := hexVal_hexDig (n / 256 % 16) (Nat.mod_lt _ (by omega))
  have e3 := hexVal_hexDig (n / 16 % 16) (Nat.mod_lt _ (by omega))
  have e4 := hexVal_hexDig (n % 16) (Nat.mod_lt _ (by omega))
  simp only [hex4val, e1, e2, e3, e4, Option.some.injEq]
  omega

/-- The escape sequence (or the character itself) `json.dumps` emits for one
character of a string value. -/
def escChar (c : Char) : List Char :=
  if c = '"' then ['\\', '"']
  else if c = '\\' then ['\\', '\\']
  else if c = '\x08' then ['\\', 'b']
  else if c = '\x09' then ['\\', 't']
  else if c = '\x0a' then ['\\', 'n']
  else if c = '\x0c' then ['\\', 'f']
  else if c = '\x0d' then ['\\', 'r']
  else if c.toNat < 0x20 then
    ['\\', 'u', '0', '0', hexDig (c.toNat / 16), hexDig (c.toNat % 16)]
  else if c.toNat < 0x7f then [c]
  else if c.toNat < 0x10000 then
    ['\\', 'u', hexDig (c.toNat / 4096 % 16), hexDig (c.toNat / 256 % 16),
     hexDig (c.toNat / 16 % 16), hexDig (c.toNat % 16)]
  else
    -- astral plane: UTF-16 surrogate pair ((c - 0x10000) split 10/10 bits),
    -- high surrogate 0xD800 + upper bits, then low surrogate 0xDC00 + lower
    ['\\', 'u', hexDig ((0xD800 + (c.toNat - 0x10000) / 0x400) / 4096 % 16),
     hexDig ((0xD800 + (c.toNat - 0x10000) / 0x400) / 256 % 16),
     hexDig ((0xD800 + (c.toNat - 0x10000) / 0x400) / 16 % 16),
     hexDig ((0xD800 + (c.toNat - 0x10000) / 0x400) % 16),
     '\\', 'u', hexDig ((0xDC00 + (c.toNat - 0x10000) % 0x400) / 4096 % 16),
     hexDig ((0xDC00 + (c.toNat - 0x10000) % 0x400) / 256 % 16),
     hexDig ((0xDC00 + (c.toNat - 0x10000) % 0x400) / 16 % 16),
     hexDig ((0xDC00 + (c.toNat - 0x10000) % 0x400) % 16)]

/-- JSON-escape a whole string value. -/
def escape : List Char → List Char
  | [] => []
  | c :: t => escChar c ++ escape t

/-- Prepend a decoded character to a string-parser result. -/
def pcons (c : Char) (r : Option (List Char × List Char)) :
    Option (List Char × List Char) :=
  r.map fun p => (c :: p.1, p.2)

/-- Decode a `\uXXXX` escape body (4 hex digits already split off by
`pjsEsc`); a high surrogate must be followed by a second `\u` escape holding
the low surrogate, as json.loads does for astral characters. -/
def pjsEscU (go : List Char → Option (List Char × List Char)) :
    List Char → Option (List Char × List Char)
  | h1 :: h2 :: h3 :: h4 :: rest3 =>
    match hex4val h1 h2 h3 h4 with
    | none => none
    | some n =>
      if n < 0xD800 then pcons (Char.ofNat n) (go rest3)
      else if n < 0xDC00 then
        match rest3 with
        | b1 :: b2 :: g1 :: g2 :: g3 :: g4 :: rest4 =>
          if b1 = '\\' ∧ b2 = 'u' then
            match hex4val g1 g2 g3 g4 with
            | none => none
            | some m =>
              if 0xDC00 ≤ m ∧ m < 0xE000 then
                pcons (Char.ofNat (0x10000 + (n - 0xD800) * 0x400 + (m - 0xDC00)))
                  (go rest4)
              else none
          else none
        | _ => none
      else if n < 0xE000 then none
      else pcons (Char.ofNat n) (go rest3)
  | _ => none

/-- Decode one backslash escape (the backslash itself already consumed). -/
def pjsEsc (go : List Char → Option (List Char × List Char)) :
    List Char → Option (List Char × List Char)
  | [] => none
  | e :: rest2 =>
    if e = '"' then pcons '"' (go rest2)
    else if e = '\\' then pcons '\\' (go rest2)
    else if e = '/' then pcons '/' (go rest2)
    else if e = 'b' then pcons '\x08' (go rest2)
    else if e = 't' then pcons '\x09' (go rest2)
    else if e = 'n' then pcons '\x0a' (go rest2)
    else if e = 'f' then pcons '\x0c' (go rest2)
    else if e = 'r' then pcons '\x0d' (go rest2)
    else if e = 'u' then pjsEscU go rest2
    else none

/-- One step of the string scanner: the closing quote ends the string, a
backslash starts an escape, any other character stands for itself. -/
def pjsBody (go : List Char → Option (List Char × List Char)) :
    List Char → Option (List Char × List Char)
  | [] => none
  | c :: rest =>
    if c = '"' then some ([], rest)
    else if c = '\\' then pjsEsc go rest
    else pcons c (go rest)

/-- Fuel-indexed scanner; every step consumes at least one input character,
so `length + 1` fuel always suffices (see `parseJString`). -/
def pjsF : Nat → List Char → Option (List Char × List Char)
  | 0, _ => none
  | f + 1, l => pjsBody (pjsF f) l

/-- The json.loads string scanner: consumes characters (decoding escapes,
recombining surrogate pairs) up to and including the closing quote, and
returns the decoded string together with the unconsumed rest.  `none` on
malformed input. -/
def parseJString (l : List Char) : Option (List Char × List Char) :=
  pjsF (l.length + 1) l

theorem pjsBody_quote (go : List Char → Option (List Char × List Char))
    (L : List Char) : pjsBody go ('"' :: L) = some ([], L) := by
  simp [pjsBody]

theorem pjsBody_raw (go : List Char → Option (List Char × List Char)) (c : Char)
    (hq : c ≠ '"') (hb : c ≠ '\\') (L : List Char) :
    pjsBody go (c :: L) = pcons c (go L) := by
  simp [pjsBody, hq, hb]

theorem pjsBody_u (go : List Char → Option (List Char × List Char))
    (h1 h2 h3 h4 : Char) (n : Nat) (L : List Char)
    (hx : hex4val h1 h2 h3 h4 = some n)
    (hn : n < 0xD800 ∨ (0xDFFF < n ∧ n < 0x10000)) :
    pjsBody go ('\\' :: 'u' :: h1 :: h2 :: h3 :: h4 :: L)
      = pcons (Char.ofNat n) (go L) := by
  simp only [pjsBody, pjsEsc, pjsEscU, hx, Char.reduceEq, reduceIte]
  rcases hn with hlo | ⟨hhi, hup⟩
  · rw [if_pos hlo]
  · rw [if_neg (by omega), if_neg (by omega), if_neg (by omega)]

theorem pjsBody_pair (go : List Char → Option (List Char × List Char))
    (h1 h2 h3 h4 g1 g2 g3 g4 : Char) (n m : Nat) (L : List Char)
    (hx : hex4val h1 h2 h3 h4 = some n) (hy : hex4val g1 g2 g3 g4 = some m)
    (hn : 0xD800 ≤ n ∧ n < 0xDC00) (hm : 0xDC00 ≤ m ∧ m < 0xE000) :
    pjsBody go ('\\' :: 'u' :: h1 :: h2 :: h3 :: h4 :: '\\' :: 'u'
        :: g1 :: g2 :: g3 :: g4 :: L)
      = pcons (Char.ofNat (0x10000 + (n - 0xD800) * 0x400 + (m - 0xDC00))) (go L) := by
  simp only [pjsBody, pjsEsc, pjsEscU, hx, hy, Char.reduceEq, reduceIte]
  rw [if_neg (by omega), if_pos (by omega), if_pos (by trivial), if_pos hm]

theorem pjsBody_escQuote (go : List Char → Option (List Char × List Char))
    (L : List Char) : pjsBody go ('\\' :: '"' :: L) = pcons '"' (go L) := by
  simp only [pjsBody, pjsEsc, Char.reduceEq, reduceIte]

theorem pjsBody_escBackslash (go : List Char → Option (List Char × List Char))
    (L : List Char) : pjsBody go ('\\' :: '\\' :: L) = pcons '\\' (go L) := by
  simp only [pjsBody, pjsEsc, Char.reduceEq, reduceIte]

theorem pjsBody_escB (go : List Char → Option (List Char × List Char))
    (L : List Char) : pjsBody go ('\\' :: 'b' :: L) = pcons '\x08' (go L) := by
  simp only [pjsBody, pjsEsc, Char.reduceEq, reduceIte]

theorem pjsBody_escT (go : List Char → Option (List Char × List Char))
    (L : List Char) : pjsBody go ('\\' :: 't' :: L) = pcons '\x09' (go L) := by
  simp only [pjsBody, pjsEsc, Char.reduceEq, reduceIte]

theorem pjsBody_escN (go : List Char → Option (List Char × List Char))
    (L : List Char) : pjsBody go ('\\' :: 'n' :: L) = pcons '\x0a' (go L) := by
  simp only [pjsBody, pjsEsc, Char.reduceEq, reduceIte]

theorem pjsBody_escF (go : List Char → Option (List Char × List Char))
    (L : List Char) : pjsBody go ('\\' :: 'f' :: L) = pcons '\x0c' (go L) := by
  simp only [pjsBody, pjsEsc, Char.reduceEq, reduceIte]

theorem pjsBody_escR (go : List Char → Option (List Char × List Char))
    (L : List Char) : pjsBody go ('\\' :: 'r' :: L) = pcons '\x0d' (go L) := by
  simp only [pjsBody, pjsEsc, Char.reduceEq, reduceIte]

theorem hex4val_byte (n : Nat) (h : n < 256) :
    hex4val '0' '0' (hexDig (n / 16)) (hexDig (n % 16)) = some n := by
  have e0 : hexVal '0' = some 0 := rfl
  have e3 := hexVal_hexDig (n / 16) (by omega)
  have e4 := hexVal_hexDig (n % 16) (by omega)
  simp only [hex4val, e0, e3, e4, Option.some.injEq]
  omega

theorem escChar_length_pos (c : Char) : 0 < (escChar c).length := by
  unfold escChar
  by_cases h1 : c = '"'
  · rw [if_pos h1]; simp
  rw [if_neg h1]
  by_cases h2 : c = '\\'
  · rw [if_pos h2]; simp
  rw [if_neg h2]
  by_cases h3 : c = '\x08'
  · rw [if_pos h3]; simp
  rw [if_neg h3]
  by_cases h4 : c = '\x09'
  · rw [if_pos h4]; simp
  rw [if_neg h4]
  by_cases h5 : c = '\x0a'
  · rw [if_pos h5]; simp
  rw [if_neg h5]
  by_cases h6 : c = '\x0c'
  · rw [if_pos h6]; simp
  rw [if_neg h6]
  by_cases h7 : c = '\x0d'
  · rw [if_pos h7]; simp
  rw [if_neg h7]
  by_cases h8 : c.toNat < 0x20
  · rw [if_pos h8]; simp
  rw [if_neg h8]
  by_cases h9 : c.toNat < 0x7f
  · rw [if_pos h9]; simp
  rw [if_neg h9]
  by_cases h10 : c.toNat < 0x10000
  · rw [if_pos h10]; simp
  rw [if_neg h10]
  simp

theorem escape_length_ge (s : List Char) : s.length ≤ (escape s).length := by
  induction s with
  | nil => simp [escape]
  | cons c t ih =>
    have := escChar_length_pos c
    simp only [escape, List.length_append, List.length_cons]
    omega

theorem char_valid_nat (c : Char) :
    c.toNat < 0xD800 ∨ (0xDFFF < c.toNat ∧ c.toNat < 0x110000) := c.valid

theorem pjsF_escape (s : List Char) : ∀ f rest, s.length < f →
    pjsF f (escape s ++ '"' :: rest) = some (s, rest) := by
  induction s with
  | nil =>
    intro f rest hf
    obtain ⟨g, rfl⟩ : ∃ g, f = g + 1 := ⟨f - 1, by omega⟩
    simp only [escape, List.nil_append, pjsF, pjsBody_quote]
  | cons c t ih =>
    intro f rest hf
    obtain ⟨g, rfl⟩ : ∃ g, f = g + 1 := ⟨f - 1, by omega⟩
    have iht : pjsF g (escape t ++ '"' :: rest) = some (t, rest) :=
      ih g rest (by simp only [List.length_cons] at hf; omega)
    rw [escape, List.append_assoc]
    simp only [pjsF]
    by_cases h1 : c = '"'
    · subst h1
      have he : escChar '"' = ['\\', '"'] := rfl
      rw [he, List.cons_append, List.cons_append, List.nil_append,
        pjsBody_escQuote, iht]
      rfl
    · by_cases h2 : c = '\\'
      · subst h2
        have he : escChar '\\' = ['\\', '\\'] := rfl
        rw [he, List.cons_append, List.cons_append, List.nil_append,
          pjsBody_escBackslash, iht]
        rfl
      · by_cases h3 : c = '\x08'
        · subst h3
          have he : escChar '\x08' = ['\\', 'b'] := rfl
          rw [he, List.cons_append, List.cons_append, List.nil_append,
            pjsBody_escB, iht]
          rfl
        · by_cases h4 : c = '\x09'
          · subst h4
            have he : escChar '\x09' = ['\\', 't'] := rfl
            rw [he, List.cons_append, List.cons_append, List.nil_append,
              pjsBody_escT, iht]
            rfl
          · by_cases h5 : c = '\x0a'
            · subst h5
              have he : escChar '\x0a' = ['\\', 'n'] := rfl
              rw [he, List.cons_append, List.cons_append, List.nil_append,
                pjsBody_escN, iht]
              rfl
            · by_cases h6 : c = '\x0c'
              · subst h6
                have he : escChar '\x0c' = ['\\', 'f'] := rfl
                rw [he, List.cons_append, List.cons_append, List.nil_append,
                  pjsBody_escF, iht]
                rfl
              · by_cases h7 : c = '\x0d'
                · subst h7
                  have he : escChar '\x0d' = ['\\', 'r'] := rfl
                  rw [he, List.cons_append, List.cons_append, List.nil_append,
                    pjsBody_escR, iht]
                  rfl
                · by_cases h8 : c.toNat < 0x20
                  · -- control character without a shorthand: \u00XX
                    have he : escChar c
                        = ['\\', 'u', '0', '0', hexDig (c.toNat / 16),
                           hexDig (c.toNat % 16)] := by
                      simp [escChar, h1, h2, h3, h4, h5, h6, h7, h8]
                    rw [he]
                    simp only [List.cons_append, List.nil_append]
                    rw [pjsBody_u _ _ _ _ _ c.toNat _
                        (hex4val_byte c.toNat (by omega)) (Or.inl (by omega)),
                      iht, Char.ofNat_toNat]
                    rfl
                  · by_cases h9 : c.toNat < 0x7f
                    · -- printable ASCII, emitted raw
                      have he : escChar c = [c] := by
                        simp [escChar, h1, h2, h3, h4, h5, h6, h7, h8, h9]
                      rw [he, List.cons_append, List.nil_append,
                        pjsBody_raw _ _ h1 h2, iht]
                      rfl
                    · by_cases h10 : c.toNat < 0x10000
                      · -- BMP character above 0x7e: \uXXXX
                        have he : escChar c
                            = ['\\', 'u', hexDig (c.toNat / 4096 % 16),
                               hexDig (c.toNat / 256 % 16), hexDig (c.toNat / 16 % 16),
                               hexDig (c.toNat % 16)] := by
                          simp [escChar, h1, h2, h3, h4, h5, h6, h7, h8, h9, h10]
                        have hn : c.toNat < 0xD800
                            ∨ (0xDFFF < c.toNat ∧ c.toNat < 0x10000) := by
                          rcases char_valid_nat c with hv | ⟨hv1, hv2⟩
                          · exact Or.inl hv
                          · exact Or.inr ⟨hv1, h10⟩
                        rw [he]
                        simp only [List.cons_append, List.nil_append]
                        rw [pjsBody_u _ _ _ _ _ c.toNat _
                            (hex4val_hexDig c.toNat h10) hn, iht, Char.ofNat_toNat]
                        rfl
                      · -- astral character: surrogate pair
                        have hup : c.toNat < 0x110000 := by
                          rcases char_valid_nat c with hv | ⟨hv1, hv2⟩
                          · omega
                          · exact hv2
                        have he : escChar c
                            = ['\\', 'u',
                               hexDig ((0xD800 + (c.toNat - 0x10000) / 0x400) / 4096 % 16),
                               hexDig ((0xD800 + (c.toNat - 0x10000) / 0x400) / 256 % 16),
                               hexDig ((0xD800 + (c.toNat - 0x10000) / 0x400) / 16 % 16),
                               hexDig ((0xD800 + (c.toNat - 0x10000) / 0x400) % 16),
                               '\\', 'u',
                               hexDig ((0xDC00 + (c.toNat - 0x10000) % 0x400) / 4096 % 16),
                               hexDig ((0xDC00 + (c.toNat - 0x10000) % 0x400) / 256 % 16),
                               hexDig ((0xDC00 + (c.toNat - 0x10000) % 0x400) / 16 % 16),
                               hexDig ((0xDC00 + (c.toNat - 0x10000) % 0x400) % 16)] := by
                          simp [escChar, h1, h2, h3, h4, h5, h6, h7, h8, h9, h10]
                        have hdiv : (c.toNat - 0x10000) / 0x400 < 0x400 := by omega
                        rw [he]
                        simp only [List.cons_append, List.nil_append]
                        rw [pjsBody_pair _ _ _ _ _ _ _ _ _
                            (0xD800 + (c.toNat - 0x10000) / 0x400)
                            (0xDC00 + (c.toNat - 0x10000) % 0x400) _
                            (hex4val_hexDig _ (by omega))
                            (hex4val_hexDig _ (by
                              have := Nat.mod_lt (c.toNat - 0x10000) (show 0 < 0x400 by omega)
                              omega))
                            (by omega)
                            (by
                              have := Nat.mod_lt (c.toNat - 0x10000) (show 0 < 0x400 by omega)
                              omega),
                          iht]
                        have hc : (0x10000 + (0xD800 + (c.toNat - 0x10000) / 0x400 - 0xD800)
                              * 0x400 + (0xDC00 + (c.toNat - 0x10000) % 0x400 - 0xDC00))
                            = c.toNat := by omega
                        rw [hc, Char.ofNat_toNat]
                        rfl

/-- json.loads inverts json.dumps string escaping: scanning the escaped text
followed by the closing quote yields back the original string and leaves the
rest of the input untouched. -/
theorem parseJString_escape (s rest : List Char) :
    parseJString (escape s ++ '"' :: rest) = some (s, rest) := by
  have hlen := escape_length_ge s
  exact pjsF_escape s ((escape s ++ '"' :: rest).length + 1) rest
    (by simp only [List.length_append, List.length_cons]; omega)

/-! ## URL-safe base64 (models Python's `base64.urlsafe_b64encode` /
`urlsafe_b64decode`).  Bytes are `Nat`s below 256.  `retrieverevalock`
appends `"=="` before decoding (commoniface.py line 74), which Python's
lenient decoder tolerates; this is modelled by stripping all trailing `=`
before decoding the sextet stream. -/

/-- The URL-safe base64 alphabet (RFC 4648 §5: `-` and `_`). -/
def b64chars : List Char :=
  "ABCDEFGHIJKLMNOPQRSTUVWXYZabcdefghijklmnopqrstuvwxyz0123456789-_".toList

def char6 (n : Nat) : Char := b64chars.getD n '='

def dec6 (c : Char) : Option Nat := b64chars.findIdx? (fun a => a == c)

/-- Bytes to 6-bit groups, 3 bytes at a time; a trailing group of 2 or 1
bytes becomes 3 or 2 sextets (the remaining low bits zero-padded). -/
def toSex : List Nat → List Nat
  | b0 :: b1 :: b2 :: rest =>
    b0 / 4 :: ((b0 % 4) * 16 + b1 / 16) :: ((b1 % 16) * 4 + b2 / 64) :: b2 % 64
      :: toSex rest
  | [b0, b1] => [b0 / 4, (b0 % 4) * 16 + b1 / 16, (b1 % 16) * 4]
  | [b0] => [b0 / 4, (b0 % 4) * 16]
  | [] => []

/-- Sextets back to bytes; a final group of 3 or 2 sextets yields 2 or 1
bytes; a lone trailing sextet is invalid. -/
def fromSex : List Nat → Option (List Nat)
  | s0 :: s1 :: s2 :: s3 :: rest =>
    (fromSex rest).map fun bs =>
      (s0 * 4 + s1 / 16) :: ((s1 % 16) * 16 + s2 / 4) :: ((s2 % 4) * 64 + s3) :: bs
  | [s0, s1, s2] => some [s0 * 4 + s1 / 16, (s1 % 16) * 16 + s2 / 4]
  | [s0, s1] => some [s0 * 4 + s1 / 16]
  | [_] => none
  | [] => some []

/-- `=` padding appended by `b64encode` to reach a multiple of 4 chars. -/
def b64pad (n : Nat) : List Char :=
  match n % 3 with
  | 0 => []
  | 1 => ['=', '=']
  | _ => ['=']

def b64encode (bs : List Nat) : List Char :=
  (toSex bs).map char6 ++ b64pad bs.length

/-- Strip all trailing `=` characters (the lenient padding handling). -/
def stripEq (s : List Char) : List Char :=
  (s.reverse.dropWhile (fun c => c == '=')).reverse

/-- Decode every character through the alphabet; `none` on a foreign one. -/
def mapDec6 : List Char → Option (List Nat)
  | [] => some []
  | c :: t =>
    match dec6 c, mapDec6 t with
    | some v, some vs => some (v :: vs)
    | _, _ => none

def b64decode (s : List Char) : Option (List Nat) :=
  (mapDec6 (stripEq s)).bind fromSex

theorem dec6_char6 (n : Nat) (h : n < 64) : dec6 (char6 n) = some n := by
  have : ∀ m : Fin 64, dec6 (char6 m.val) = some m.val := by decide
  exact this ⟨n, h⟩

theorem char6_beq_pad (n : Nat) (h : n < 64) : (char6 n == '=') = false := by
  have : ∀ m : Fin 64, (char6 m.val == '=') = false := by decide
  exact this ⟨n, h⟩

theorem toSex_lt (bs : List Nat) (hb : ∀ b ∈ bs, b < 256) :
    ∀ s ∈ toSex bs, s < 64 := by
  induction bs using toSex.induct with
  | case1 b0 b1 b2 rest ih =>
    have h0 : b0 < 256 := hb b0 (by simp)
    have h1 : b1 < 256 := hb b1 (by simp)
    have h2 : b2 < 256 := hb b2 (by simp)
    have ih2 := ih (fun b hbm => hb b (by simp [hbm]))
    intro s hs
    simp only [toSex, List.mem_cons] at hs
    rcases hs with rfl | rfl | rfl | rfl | hm
    · omega
    · omega
    · omega
    · omega
    · exact ih2 s hm
  | case2 b0 b1 =>
    have h0 : b0 < 256 := hb b0 (by simp)
    have h1 : b1 < 256 := hb b1 (by simp)
    intro s hs
    simp only [toSex, List.mem_cons] at hs
    rcases hs with rfl | rfl | rfl | h
    · omega
    · omega
    · omega
    · simp at h
  | case3 b0 =>
    have h0 : b0 < 256 := hb b0 (by simp)
    intro s hs
    simp only [toSex, List.mem_cons] at hs
    rcases hs with rfl | rfl | h
    · omega
    · omega
    · simp at h
  | case4 => intro s hs; simp [toSex] at hs

theorem fromSex_toSex (bs : List Nat) (hb : ∀ b ∈ bs, b < 256) :
    fromSex (toSex bs) = some bs := by
  induction bs using toSex.induct with
  | case1 b0 b1 b2 rest ih =>
    have h0 : b0 < 256 := hb b0 (by simp)
    have h1 : b1 < 256 := hb b1 (by simp)
    have h2 : b2 < 256 := hb b2 (by simp)
    have ih2 := ih (fun b hbm => hb b (by simp [hbm]))
    simp only [toSex, fromSex, ih2, Option.map_some]
    congr 1
    have e0 : b0 / 4 * 4 + ((b0 % 4) * 16 + b1 / 16) / 16 = b0 := by omega
    have e1 : ((b0 % 4) * 16 + b1 / 16) % 16 * 16 + ((b1 % 16) * 4 + b2 / 64) / 4
        = b1 := by omega
    have e2 : ((b1 % 16) * 4 + b2 / 64) % 4 * 64 + b2 % 64 = b2 := by omega
    rw [e0, e1, e2]
    rfl
  | case2 b0 b1 =>
    have h0 : b0 < 256 := hb b0 (by simp)
    have h1 : b1 < 256 := hb b1 (by simp)
    simp only [toSex, fromSex, Option.some.injEq]
    have e0 : b0 / 4 * 4 + ((b0 % 4) * 16 + b1 / 16) / 16 = b0 := by omega
    have e1 : ((b0 % 4) * 16 + b1 / 16) % 16 * 16 + (b1 % 16) * 4 / 4 = b1 := by
      omega
    rw [e0, e1]
  | case3 b0 =>
    have h0 : b0 < 256 := hb b0 (by simp)
    simp only [toSex, fromSex, Option.some.injEq]
    have e0 : b0 / 4 * 4 + (b0 % 4) * 16 / 16 = b0 := by omega
    rw [e0]
  | case4 => rfl

theorem mapDec6_char6 (sex : List Nat) (hs : ∀ s ∈ sex, s < 64) :
    mapDec6 (sex.map char6) = some sex := by
  induction sex with
  | nil => rfl
  | cons s t ih =>
    have h0 : s < 64 := hs s (by simp)
    have ih2 := ih (fun x hx => hs x (by simp [hx]))
    simp only [List.map_cons, mapDec6, dec6_char6 s h0, ih2]

theorem dropWhile_all_true (p : Char → Bool) (l r : List Char)
    (h : ∀ c ∈ l, p c = true) : (l ++ r).dropWhile p = r.dropWhile p := by
  induction l with
  | nil => simp
  | cons c t ih =>
    have hc := h c (by simp)
    simp only [List.cons_append, List.dropWhile_cons, hc, if_true]
    exact ih (fun x hx => h x (by simp [hx]))

theorem dropWhile_all_false (p : Char → Bool) (l : List Char)
    (h : ∀ c ∈ l, p c = false) : l.dropWhile p = l := by
  cases l with
  | nil => rfl
  | cons c t =>
    have hc := h c (by simp)
    simp [List.dropWhile_cons, hc]

theorem stripEq_append (xs ys : List Char) (hx : ∀ c ∈ xs, (c == '=') = false)
    (hy : ∀ c ∈ ys, (c == '=') = true) : stripEq (xs ++ ys) = xs := by
  unfold stripEq
  rw [List.reverse_append,
    dropWhile_all_true _ _ _ (fun c hc => hy c (List.mem_reverse.mp hc)),
    dropWhile_all_false _ _ (fun c hc => hx c (List.mem_reverse.mp hc)),
    List.reverse_reverse]

theorem b64pad_all_pad (n : Nat) : ∀ c ∈ b64pad n, (c == '=') = true := by
  have h3 : n % 3 = 0 ∨ n % 3 = 1 ∨ n % 3 = 2 := by omega
  rcases h3 with h | h | h <;> simp [b64pad, h]

/-- Python's `urlsafe_b64decode(s + '==')` inverts `urlsafe_b64encode` on
any byte string (the appended padding is tolerated). -/
theorem b64decode_b64encode (bs : List Nat) (hb : ∀ b ∈ bs, b < 256) :
    b64decode (b64encode bs ++ ['=', '=']) = some bs := by
  have hsex := toSex_lt bs hb
  have hmap : ∀ c ∈ (toSex bs).map char6, (c == '=') = false := by
    intro c hc
    obtain ⟨s, hs, rfl⟩ := List.mem_map.mp hc
    exact char6_beq_pad s (hsex s hs)
  have hpad : ∀ c ∈ b64pad bs.length ++ ['=', '='], (c == '=') = true := by
    intro c hc
    rcases List.mem_append.mp hc with h | h
    · exact b64pad_all_pad _ c h
    · simp only [List.mem_cons, List.mem_singleton] at h
      rcases h with rfl | rfl | h
      · rfl
      · rfl
      · simp at h
  rw [b64encode, List.append_assoc]
  rw [b64decode, stripEq_append _ _ hmap hpad, mapDec6_char6 _ hsex,
    Option.some_bind]
  exact fromSex_toSex bs hb

/-! ## The Reva lock JSON document (json.dumps of the dict literal built in
commoniface.py lines 56-67, with the default separators: keys in insertion
order `lock_id, type, app_name, user, expiration`). -/

/-- Consume an expected literal text; `none` when the input differs. -/
def dropLit : List Char → List Char → Option (List Char)
  | [], s => some s
  | _ :: _, [] => none
  | p :: ps, c :: cs => if c = p then dropLit ps cs else none

theorem dropLit_self (p r : List Char) : dropLit p (p ++ r) = some r := by
  induction p with
  | nil => rfl
  | cons c t ih => simp [dropLit, ih]

def lockLit1 : List Char := "\x7b\"lock_id\": \"".toList
def lockLit2 : List Char := ", \"type\": ".toList
def lockLit3 : List Char := ", \"app_name\": \"".toList
def lockLit4 : List Char := ", \"user\": \x7b\x7d, \"expiration\": \x7b\"seconds\": ".toList
def lockLit5 : List Char := "\x7d\x7d".toList

/-- `json.dumps` of the Reva lock dict (the exact character stream Python
produces, string values escaped). -/
def dumpRevaLock (lk : RevaLock) : List Char :=
  lockLit1 ++ (escape lk.lock_id.toList ++ '"'
    :: (lockLit2 ++ (natToDec lk.type ++ (lockLit3 ++ (escape lk.app_name.toList
    ++ '"' :: (lockLit4 ++ (natToDec lk.expiration ++ lockLit5)))))))

/-- `json.loads` specialised to the Reva lock schema: accepts exactly the
serialised form above (which is the only form this codec ever produces) and
recovers the four fields. -/
def parseRevaLock (l : List Char) : Option RevaLock := do
  let r1 ← dropLit lockLit1 l
  let (lid, r2) ← parseJString r1
  let r3 ← dropLit lockLit2 r2
  let (ty, r4) ← parseDecNat r3
  let r5 ← dropLit lockLit3 r4
  let (app, r6) ← parseJString r5
  let r7 ← dropLit lockLit4 r6
  let (exp, r8) ← parseDecNat r7
  let r9 ← dropLit lockLit5 r8
  if r9 = [] then
    pure { lock_id := String.mk lid, type := ty, app_name := String.mk app,
           expiration := exp }
  else none

theorem take1_append (l r : List Char) (hl : l ≠ []) :
    (l ++ r).take 1 = l.take 1 := by
  cases l with
  | nil => exact absurd rfl hl
  | cons c t => simp

theorem parseRevaLock_dump (lk : RevaLock) :
    parseRevaLock (dumpRevaLock lk) = some lk := by
  have hd2 : ∀ c ∈ (lockLit3 ++ (escape lk.app_name.toList ++ '"'
      :: (lockLit4 ++ (natToDec lk.expiration ++ lockLit5)))).take 1,
      c.isDigit = false := by
    rw [take1_append _ _ (by decide)]; decide
  have hd4 : ∀ c ∈ (lockLit5 : List Char).take 1, c.isDigit = false := by decide
  have h5 : dropLit lockLit5 lockLit5 = some [] := by
    have := dropLit_self lockLit5 []
    simpa using this
  unfold parseRevaLock dumpRevaLock
  simp only [Option.bind_eq_bind, Option.some_bind, dropLit_self,
    parseJString_escape, parseDecNat_natToDec _ _ hd2, parseDecNat_natToDec _ _ hd4,
    h5]
  rfl

/-! ## genrevalock / retrieverevalock (commoniface.py lines 52-76)

`time.time()` and `config.getint("general", "wopilockexpiration")` are
outside inputs: they appear as the `now` and `ttl` parameters.  The dumped
JSON is pure ASCII (`ensure_ascii=True`), so `.encode()` is `Char.toNat`
byte for byte and `.decode()` is `Char.ofNat`. -/

def genrevalock (now ttl : Nat) (appname : Option String) (value : String) :
    String :=
  String.mk (b64encode ((dumpRevaLock
    { lock_id := value, type := 2, app_name := pyAppOr appname,
      expiration := now + ttl }).map Char.toNat))

/-- `retrieverevalock` (line 71-76): base64-decode with two extra padding
characters appended, then parse the JSON payload; the raised IOError is
modelled as `none`. -/
def retrieverevalock (rawlock : String) : Option RevaLock :=
  (b64decode (rawlock.toList ++ ['=', '='])).bind fun bs =>
    parseRevaLock (bs.map Char.ofNat)

theorem digitChar_lt_256 (d : Nat) : (digitChar d).toNat < 256 := by
  unfold digitChar
  split <;> decide

theorem hexDig_lt_256 (d : Nat) : (hexDig d).toNat < 256 := by
  unfold hexDig
  split <;> decide

theorem natToDecF_lt_256 (f : Nat) : ∀ n, ∀ c ∈ natToDecF f n, c.toNat < 256 := by
  induction f with
  | zero =>
    intro n c hc
    simp only [natToDecF, List.mem_singleton] at hc
    subst hc; exact digitChar_lt_256 n
  | succ f ih =>
    intro n c hc
    rw [natToDecF] at hc
    split at hc
    · simp only [List.mem_singleton] at hc
      subst hc; exact digitChar_lt_256 n
    · rcases List.mem_append.mp hc with h1 | h2
      · exact ih (n / 10) c h1
      · simp only [List.mem_singleton] at h2
        subst h2; exact digitChar_lt_256 (n % 10)

theorem natToDec_lt_256 (n : Nat) : ∀ c ∈ natToDec n, c.toNat < 256 :=
  natToDecF_lt_256 n n

theorem escChar_lt_256 (c : Char) : ∀ x ∈ escChar c, x.toNat < 256 := by
  unfold escChar
  by_cases h1 : c = '"'
  · rw [if_pos h1]
    simp only [List.forall_mem_cons]
    exact ⟨by decide, by decide, by simp⟩
  rw [if_neg h1]
  by_cases h2 : c = '\\'
  · rw [if_pos h2]
    simp only [List.forall_mem_cons]
    exact ⟨by decide, by decide, by simp⟩
  rw [if_neg h2]
  by_cases h3 : c = '\x08'
  · rw [if_pos h3]
    simp only [List.forall_mem_cons]
    exact ⟨by decide, by decide, by simp⟩
  rw [if_neg h3]
  by_cases h4 : c = '\x09'
  · rw [if_pos h4]
    simp only [List.forall_mem_cons]
    exact ⟨by decide, by decide, by simp⟩
  rw [if_neg h4]
  by_cases h5 : c = '\x0a'
  · rw [if_pos h5]
    simp only [List.forall_mem_cons]
    exact ⟨by decide, by decide, by simp⟩
  rw [if_neg h5]
  by_cases h6 : c = '\x0c'
  · rw [if_pos h6]
    simp only [List.forall_mem_cons]
    exact ⟨by decide, by decide, by simp⟩
  rw [if_neg h6]
  by_cases h7 : c = '\x0d'
  · rw [if_pos h7]
    simp only [List.forall_mem_cons]
    exact ⟨by decide, by decide, by simp⟩
  rw [if_neg h7]
  by_cases h8 : c.toNat < 0x20
  · rw [if_pos h8]
    simp only [List.forall_mem_cons]
    exact ⟨by decide, by decide, by decide, by decide, hexDig_lt_256 _, hexDig_lt_256 _, by simp⟩
  rw [if_neg h8]
  by_cases h9 : c.toNat < 0x7f
  · rw [if_pos h9]
    simp only [List.forall_mem_cons]
    exact ⟨by omega, by simp⟩
  rw [if_neg h9]
  by_cases h10 : c.toNat < 0x10000
  · rw [if_pos h10]
    simp only [List.forall_mem_cons]
    exact ⟨by decide, by decide, hexDig_lt_256 _, hexDig_lt_256 _, hexDig_lt_256 _, hexDig_lt_256 _, by simp⟩
  rw [if_neg h10]
  simp only [List.forall_mem_cons]
  exact ⟨by decide, by decide, hexDig_lt_256 _, hexDig_lt_256 _, hexDig_lt_256 _, hexDig_lt_256 _, by decide, by decide, hexDig_lt_256 _, hexDig_lt_256 _, hexDig_lt_256 _, hexDig_lt_256 _, by simp⟩

theorem escape_lt_256 (s : List Char) : ∀ x ∈ escape s, x.toNat < 256 := by
  induction s with
  | nil => intro x hx; simp [escape] at hx
  | cons c t ih =>
    intro x hx
    rw [escape] at hx
    rcases List.mem_append.mp hx with h | h
    · exact escChar_lt_256 c x h
    · exact ih x h

theorem dumpRevaLock_lt_256 (lk : RevaLock) :
    ∀ b ∈ (dumpRevaLock lk).map Char.toNat, b < 256 := by
  intro b hb
  obtain ⟨x, hx, rfl⟩ := List.mem_map.mp hb
  unfold dumpRevaLock at hx
  have hlit1 : ∀ x ∈ lockLit1, x.toNat < 256 := by decide
  have hlit2 : ∀ x ∈ lockLit2, x.toNat < 256 := by decide
  have hlit3 : ∀ x ∈ lockLit3, x.toNat < 256 := by decide
  have hlit4 : ∀ x ∈ lockLit4, x.toNat < 256 := by decide
  have hlit5 : ∀ x ∈ lockLit5, x.toNat < 256 := by decide
  simp only [List.mem_append, List.mem_cons] at hx
  rcases hx with h | h | h | h | h | h | h | h | h | h
  · exact hlit1 x h
  · exact escape_lt_256 _ x h
  · subst h; decide
  · exact hlit2 x h
  · exact natToDec_lt_256 _ x h
  · exact hlit3 x h
  · exact escape_lt_256 _ x h
  · subst h; decide
  · exact hlit4 x h
  · rcases h with h2 | h2
    · exact natToDec_lt_256 _ x h2
    · exact hlit5 x h2

theorem map_ofNat_toNat (l : List Char) :
    (l.map Char.toNat).map Char.ofNat = l := by
  induction l with
  | nil => rfl
  | cons c t ih => simp only [List.map_cons, Char.ofNat_toNat, ih]

/-- Shared round-trip fact for the lock codec: decoding an encoded lock
recovers the full payload (lock id, type 2, owner app with the "wopi"
default, expiration stamped `now + ttl`). -/
theorem retrieverevalock_genrevalock (now ttl : Nat) (appname : Option String)
    (value : String) :
    retrieverevalock (genrevalock now ttl appname value)
      = some { lock_id := value, type := 2, app_name := pyAppOr appname,
               expiration := now + ttl } := by
  unfold genrevalock retrieverevalock
  have htl : (String.mk (b64encode ((dumpRevaLock
      { lock_id := value, type := 2, app_name := pyAppOr appname,
        expiration := now + ttl }).map Char.toNat))).toList
      = b64encode ((dumpRevaLock
      { lock_id := value, type := 2, app_name := pyAppOr appname,
        expiration := now + ttl }).map Char.toNat) := rfl
  rw [htl, b64decode_b64encode _ (dumpRevaLock_lt_256 _), Option.some_bind,
    map_ofNat_toNat]
  exact parseRevaLock_dump _

/-- C1: Lock codec round-trip.  For every lock-id payload value and owner
app name (including the absent/empty owner), decoding the string produced by
`genrevalock` succeeds and yields back the payload: the `lock_id` field
equals the original value, the type is the WRITE type 2, the owner is the
given app name (defaulted to "wopi"), and the expiration equals the encoding
clock plus the configured TTL — so it differs from the encode-time clock by
exactly the configured tolerance. -/
theorem genrevalock_roundtrip (now ttl : Nat) (appname : Option String)
    (value : String) :
    retrieverevalock (genrevalock now ttl appname value)
      = some { lock_id := value, type := 2, app_name := pyAppOr appname,
               expiration := now + ttl } :=
  retrieverevalock_genrevalock now ttl appname value

theorem pyAppOr_ne_empty (a : Option String) : pyAppOr a ≠ "" := by
  match a with
  | none => simp [pyAppOr]
  | some s =>
    by_cases h : s = "" <;> simp [pyAppOr, h]

/-- C10 counterexample: a lock produced by the codec with a non-"wopi"
owner app ("CodiMD") is not compatible with a different requesting app
("Etherpad"): the validator rejects it with a lock conflict.  This refutes
the claim that every lock produced by the codec is compatible with any
requesting app. -/
theorem genrevalock_nonwopi_owner_conflicts :
    validatelock "/f" "Etherpad"
        (retrieverevalock (genrevalock 100 300 (some "CodiMD") "id1"))
      = Except.error "File is locked by CodiMD" := by decide

/-- C10 (amended): every lock produced by the codec has a non-empty
`app_name`; and a call to the encoder with an empty or `None` owner app
name yields `app_name = "wopi"`, and such a lock is compatible with any
requesting app under the validator's rules. -/
theorem genrevalock_empty_owner_wopi (now ttl : Nat) (appname : Option String)
    (value fp reqapp : String) :
    (∀ lk, retrieverevalock (genrevalock now ttl appname value) = some lk →
        lk.app_name ≠ "")
    ∧ ((appname = none ∨ appname = some "") →
        ∃ lk, retrieverevalock (genrevalock now ttl appname value) = some lk
          ∧ lk.app_name = "wopi"
          ∧ validatelock fp reqapp (some lk) = Except.ok ()) := by
  constructor
  · intro lk hlk
    rw [retrieverevalock_genrevalock] at hlk
    have h := Option.some.inj hlk
    rw [← h]
    exact pyAppOr_ne_empty appname
  · intro h
    refine ⟨_, retrieverevalock_genrevalock now ttl appname value, ?_, ?_⟩
    · rcases h with rfl | rfl <;> rfl
    · rcases h with rfl | rfl <;> simp [validatelock, pyAppOr]

/-! ## os.path.splitext (posixpath), as used by wopibridge.py to detect the
`.zmd` bundle extension and the `.md` document extension inside archives. -/

/-- Index of the last occurrence of `c` (Python `str.rfind`, `none` for -1). -/
def rfindIdx (c : Char) (l : List Char) : Option Nat :=
  (List.range l.length).foldl (fun acc i => if l.getD i ' ' = c then some i else acc)
    none

/-- Index where the extension starts (`l.length` when there is none):
the last dot, provided it comes after the last slash and the base name has a
non-dot character before it (leading dots do not start an extension). -/
def splitextIdx (l : List Char) : Nat :=
  let base := match rfindIdx '/' l with
    | none => 0
    | some i => i + 1
  match rfindIdx '.' l with
  | none => l.length
  | some dot =>
    if base ≤ dot then
      if ((l.drop base).take (dot - base)).any (fun c => c != '.') then dot
      else l.length
    else l.length

/-- `os.path.splitext(s)[1]`. -/
def splitextExt (s : String) : String :=
  String.mk (s.toList.drop (splitextIdx s.toList))

/-- `os.path.splitext(s)[0]`. -/
def splitextRoot (s : String) : String :=
  String.mk (s.toList.take (splitextIdx s.toList))

theorem splitextExt_suffix (s : String) : (splitextExt s).toList <:+ s.toList :=
  List.drop_suffix _ _

/-- A file name that does not end in ".zmd" has a splitext extension other
than ".zmd" (the extension is always a suffix of the name). -/
theorem splitextExt_ne_of_not_suffix (s : String)
    (h : ¬ (".zmd".toList <:+ s.toList)) : splitextExt s ≠ ".zmd" := by
  intro he
  apply h
  have hs := splitextExt_suffix s
  rw [he] at hs
  exact hs

/-! ## The upload-reference pattern (wopibridge.py line 98:
`re.compile(r'\/uploads\/upload_\w{32}\.\w+')`) and its `findall` scan.
`\w` is modelled as ASCII alphanumerics plus underscore (the hashes CodiMD
generates are hexadecimal). -/

def isWordChar (c : Char) : Bool := c.isAlphanum || c == '_'

def uploadLit : List Char := "/uploads/upload_".toList

/-- Try to match the upload pattern at the head of the input; on success
return the matched text and the rest of the input after it (`\w+` greedy). -/
def matchUploadAt (s : List Char) : Option (List Char × List Char) :=
  if s.take 16 = uploadLit then
    if ((s.drop 16).take 32).length = 32 ∧ ((s.drop 16).take 32).all isWordChar then
      match (s.drop 16).drop 32 with
      | '.' :: r2 =>
        if r2.takeWhile isWordChar = [] then none
        else some (uploadLit ++ ((s.drop 16).take 32)
            ++ '.' :: r2.takeWhile isWordChar, r2.dropWhile isWordChar)
      | _ => none
    else none
  else none

/-- `re.findall`: left-to-right scan for non-overlapping matches.  Every
step consumes at least one character, so `length` fuel suffices. -/
def findUploadsAux : Nat → List Char → List (List Char)
  | 0, _ => []
  | _, [] => []
  | f + 1, c :: rest =>
    match matchUploadAt (c :: rest) with
    | some (m, r) => m :: findUploadsAux f r
    | none => findUploadsAux f rest

def findUploads (s : String) : List String :=
  (findUploadsAux s.toList.length s.toList).map String.mk

/-- `attachment.split('/')[-1]` — the archive entry name of an upload. -/
def lastSeg (s : String) : String := (s.splitOn "/").getLastD ""

/-! ## Bundle pack/unpack (wopibridge.py `_getattachments` lines 137-154,
`_unzipattachments` lines 157-175).  A zip archive is modelled as its entry
list in `writestr` order; `ZipFile.read(name)` resolves a name through the
name-to-info map, where a later duplicate entry overwrites an earlier one. -/

/-- `ZipFile.read(name)`: content of the last entry with that name. -/
def zipread (entries : List (String × String)) (name : String) : String :=
  (entries.foldl (fun acc e => if e.1 = name then some e.2 else acc) none).getD ""

/-- `_getattachments(mddoc, docfilename)`: `none` when the text has no
upload reference (`upload_re.search is None`); otherwise a zip with one
entry per successfully fetched attachment (failed fetches are logged and
skipped) followed by the document itself under `docfilename`. -/
def _getattachments (fetch : String → Option String) (mddoc docfilename : String) :
    Option (List (String × String)) :=
  match findUploads mddoc with
  | [] => none
  | atts =>
    some ((atts.filterMap fun a => (fetch a).map fun content => (lastSeg a, content))
      ++ [(docfilename, mddoc)])

/-- `_unzipattachments(inputbuf, targetpath)`: walk the name list; each
`.md`-named entry is read as the document (the last one wins), the other
entries are extracted to the attachment store (a side effect outside this
model).  `none` when no `.md` entry exists — the caller gets no document. -/
def _unzipattachments (entries : List (String × String)) : Option String :=
  entries.foldl
    (fun acc e => if splitextExt e.1 = ".md" then some (zipread entries e.1) else acc)
    none

theorem zipread_last (l : List (String × String)) (name text : String) :
    zipread (l ++ [(name, text)]) name = text := by
  unfold zipread
  rw [List.foldl_append]
  simp

theorem unzip_last (l : List (String × String)) (name text : String)
    (h : splitextExt name = ".md") :
    _unzipattachments (l ++ [(name, text)]) = some text := by
  unfold _unzipattachments
  rw [List.foldl_append]
  simp only [List.foldl_cons, List.foldl_nil, h, if_pos]
  rw [zipread_last]

/-- C3 (amended): Bundle round-trip.  For every fetcher, every primary
document text containing at least one well-formed attachment reference and
every file name whose splitext extension is `.md` (the form the Save path
passes: `filename.replace('.zmd', '.md')` of a `.md`/`.zmd` file), Pack
produces a bundle and Unpack returns the primary document text
byte-identically. -/
theorem bundle_roundtrip (fetch : String → Option String) (text name : String)
    (h1 : findUploads text ≠ []) (h2 : splitextExt name = ".md") :
    ∃ z, _getattachments fetch text name = some z
      ∧ _unzipattachments z = some text := by
  unfold _getattachments
  match hf : findUploads text with
  | [] => exact absurd hf h1
  | a :: atts =>
    exact ⟨_, rfl, unzip_last _ _ _ h2⟩

/-- A sample markdown text holding exactly one well-formed upload reference. -/
def sampleMdText : String :=
  "see /uploads/upload_0123456789abcdef0123456789abcdef.png here"

/-- C3 witness: the amended round-trip at a concrete input. -/
theorem bundle_roundtrip_witness :
    ∃ z, _getattachments (fun _ => none) sampleMdText "f.md" = some z
      ∧ _unzipattachments z = some sampleMdText :=
  bundle_roundtrip (fun _ => none) sampleMdText "f.md" (by decide) (by decide)

/-- C3 counterexample: the round-trip fails as originally stated.  With
zero attachment references Pack returns no bundle at all (`None`), so
`Unpack(Pack(text, name, fetcher))` cannot return the text; and for a file
name without the `.md` extension Unpack finds no document entry in the
bundle Pack built and returns `None`. -/
theorem bundle_roundtrip_counterexample :
    (_getattachments (fun _ => none) "hello" "f.md" = none)
    ∧ (_getattachments (fun _ => none) sampleMdText "f.txt"
        = some [("f.txt", sampleMdText)]
      ∧ _unzipattachments [("f.txt", sampleMdText)] = none) := by decide

theorem unzip_foldl_no_md (entries l : List (String × String))
    (h : ∀ e ∈ l, splitextExt e.1 ≠ ".md") :
    l.foldl (fun acc e => if splitextExt e.1 = ".md"
        then some (zipread entries e.1) else acc) none = none := by
  induction l with
  | nil => rfl
  | cons e t ih =>
    simp only [List.foldl_cons, if_neg (h e (by simp))]
    exact ih (fun x hx => h x (by simp [hx]))

/-- C9: Unpack with no document entry.  For every archive containing no
entry whose splitext extension is `.md`, `_unzipattachments` returns no
primary document text (`None` — the spec's MalformedBundle failure: the
caller cannot obtain a document from such a bundle). -/
theorem unzip_no_md (entries : List (String × String))
    (h : ∀ e ∈ entries, splitextExt e.1 ≠ ".md") :
    _unzipattachments entries = none := by
  unfold _unzipattachments
  exact unzip_foldl_no_md entries entries h

/-- C9 witness: a concrete archive with only non-document entries. -/
theorem unzip_no_md_witness :
    _unzipattachments [("a.png", "x"), ("b.jpg", "y")] = none :=
  unzip_no_md [("a.png", "x"), ("b.jpg", "y")] (by decide)

/-! ## The bridge's WOPI lock payload (wopibridge.py line 226: "the lock is
a dict \x7b docid, filename, isslide, isdirty \x7d") and json.dumps/loads on it.
`isdirty` is kept as the string "false"/"true", exactly as the source
stores it. -/

structure BridgeLock where
  docid : String
  filename : String
  isslide : Bool
  isdirty : String
deriving Repr, DecidableEq

def bridgeLit1 : List Char := "\x7b\"docid\": \"".toList
def bridgeLit2 : List Char := ", \"filename\": \"".toList
def bridgeLit3 : List Char := ", \"isslide\": ".toList
def bridgeLit4 : List Char := ", \"isdirty\": \"".toList
def bridgeLit5 : List Char := "\x7d".toList

def jsonBoolLit : Bool → List Char
  | true => "true".toList
  | false => "false".toList

/-- `json.dumps` of the bridge lock dict (keys in insertion order). -/
def dumpBridgeLock (l : BridgeLock) : List Char :=
  bridgeLit1 ++ (escape l.docid.toList ++ '"' :: (bridgeLit2
    ++ (escape l.filename.toList ++ '"' :: (bridgeLit3 ++ (jsonBoolLit l.isslide
    ++ (bridgeLit4 ++ (escape l.isdirty.toList ++ '"' :: bridgeLit5)))))))

def dumpsBridge (l : BridgeLock) : String := String.mk (dumpBridgeLock l)

def parseJsonBool (s : List Char) : Option (Bool × List Char) :=
  match dropLit "true".toList s with
  | some r => some (true, r)
  | none =>
    match dropLit "false".toList s with
    | some r => some (false, r)
    | none => none

/-- `json.loads` specialised to the bridge lock schema: accepts the
serialised form above (the only form the bridge ever writes). -/
def parseBridgeCore (l : List Char) : Option BridgeLock := do
  let r1 ← dropLit bridgeLit1 l
  let (docid, r2) ← parseJString r1
  let r3 ← dropLit bridgeLit2 r2
  let (fn, r4) ← parseJString r3
  let r5 ← dropLit bridgeLit3 r4
  let (sl, r6) ← parseJsonBool r5
  let r7 ← dropLit bridgeLit4 r6
  let (dt, r8) ← parseJString r7
  let r9 ← dropLit bridgeLit5 r8
  if r9 = [] then
    pure { docid := String.mk docid, filename := String.mk fn, isslide := sl,
           isdirty := String.mk dt }
  else none

/-- The three outcomes of `json.loads` on a lock header that matter to the
handlers: a bridge lock (truthy dict), the empty dict `\x7b\x7d` (valid JSON but
falsy), or a JSONDecodeError.  `jsonLoadsBridge` below classifies exactly
the strings the wider system writes into lock headers: the bridge's own
`dumpsBridge` output parses, the empty dict is recognised, and anything
else — in particular a base64-encoded Reva lock from another app, which is
not valid JSON — is `failed` (JSONDecodeError).  Valid JSON of some other
shape would really parse and crash later on the missing keys; no claim
quantifies over such headers and the model maps them to `failed`. -/
inductive LoadsResult where
  | parsed (l : BridgeLock)
  | parsedEmpty
  | failed
deriving Repr, DecidableEq

def jsonLoadsBridge (s : String) : LoadsResult :=
  if s = "\x7b\x7d" then .parsedEmpty
  else
    match parseBridgeCore s.toList with
    | some l => .parsed l
    | none => .failed

theorem parseJsonBool_lit (b : Bool) (r : List Char) :
    parseJsonBool (jsonBoolLit b ++ r) = some (b, r) := by
  have ht : "true".toList = ['t', 'r', 'u', 'e'] := rfl
  have hf : "false".toList = ['f', 'a', 'l', 's', 'e'] := rfl
  cases b
  · show parseJsonBool ("false".toList ++ r) = some (false, r)
    rw [hf]
    unfold parseJsonBool
    rw [ht]
    simp only [List.cons_append, dropLit, Char.reduceEq, reduceIte, dropLit_self]
    simp
  · show parseJsonBool ("true".toList ++ r) = some (true, r)
    rw [ht]
    unfold parseJsonBool
    rw [ht, dropLit_self]

theorem parseBridgeCore_dump (l : BridgeLock) :
    parseBridgeCore (dumpBridgeLock l) = some l := by
  have h5 : dropLit bridgeLit5 bridgeLit5 = some [] := by
    have := dropLit_self bridgeLit5 []
    simpa using this
  unfold parseBridgeCore dumpBridgeLock
  simp only [Option.bind_eq_bind, Option.some_bind, dropLit_self,
    parseJString_escape, parseJsonBool_lit, h5]
  rfl

theorem dumpsBridge_ne_braces (l : BridgeLock) : dumpsBridge l ≠ "\x7b\x7d" := by
  intro h
  have hlist : dumpBridgeLock l = "\x7b\x7d".toList := congrArg String.toList h
  have hlen : ("\x7b\x7d" : String).toList.length = 2 := rfl
  have h1 : bridgeLit1.length = 11 := by decide
  have : 11 ≤ (dumpBridgeLock l).length := by
    unfold dumpBridgeLock
    rw [List.length_append, h1]
    omega
  rw [hlist, hlen] at this
  omega

/-- json.loads inverts json.dumps on bridge locks. -/
theorem jsonLoadsBridge_dump (l : BridgeLock) :
    jsonLoadsBridge (dumpsBridge l) = .parsed l := by
  unfold jsonLoadsBridge
  rw [if_neg (dumpsBridge_ne_braces l),
    show (dumpsBridge l).toList = dumpBridgeLock l from rfl, parseBridgeCore_dump]

/-! ## The remote environment and call trace.

Every outbound HTTP call of the bridge (WOPI calls via `_wopicall`, CodiMD
document-store calls) is a synchronous request whose response the `Env`
record supplies; the handlers below return, next to their result, the list
of calls they issued, in order.  Attachment fetches (`requests.get` inside
`_getattachments`) and local-disk effects (`extract`, `os.remove`) are not
part of the trace. -/

structure FileMD where
  BaseFileName : String
  UserCanWrite : Bool
  BreadcrumbDocName : String
  UserFriendlyName : String
deriving Repr, DecidableEq

/-- A response body from the storage backend: either raw markdown bytes or
bytes that form a zip archive (given as its entry list). -/
inductive Bytes where
  | raw (s : String)
  | zipb (entries : List (String × String))
deriving Repr, DecidableEq

/-- The raw byte blob of a `Bytes` value used as document text when the
stored file is not a bundle (an opaque stand-in for the zip bytes). -/
def bytesStr : Bytes → String
  | .raw s => s
  | .zipb entries => entries.foldl (fun acc e => acc ++ e.1 ++ e.2) ""

inductive Call where
  | wopiGetFileInfo
  | wopiGetFile
  | wopiGetLockCall
  | wopiLock (lockval : String)
  | wopiPutFile (lockval : String) (contents : Option Bytes)
  | wopiPutRelative (lockval suggested : String) (contents : List (String × String))
  | wopiRefreshLock (oldlock newlock : String)
  | wopiUnlock (lockval : String)
  | codimdNew (content : String) (modeLocked : Bool)
  | codimdDownload (docid : String)
deriving Repr, DecidableEq

/-- Responses of the two remote services, one field per call site. -/
structure Env where
  /-- GetFileInfo response (`none`: body that does not parse as JSON) -/
  fileinfo : Option FileMD
  getlock_status : Nat
  /-- the `X-WOPI-Lock` response header, when present -/
  getlock_header : Option String
  lock_status : Nat
  getfile_status : Nat
  getfile_content : Bytes
  /-- CodiMD `/new` response status (302 FOUND expected) -/
  newdoc_status : Nat
  /-- last segment of the redirect URL's path (the new document id) -/
  newdoc_docid_seg : String
  download_status : Nat
  download_content : String
  putfile_status : Nat
  putrel_status : Nat
  refresh_status : Nat
  unlock_status : Nat
  fetchatt : String → Option String

/-- An uncaught Python exception escaping a handler (Flask answers 500). -/
inductive PyErr where
  /-- `raise ValueError(res.status_code)` -/
  | valueError (code : Nat)
  /-- `zipfile.BadZipFile`: the stored `.zmd` bytes are not an archive -/
  | badZip
  /-- `mddoc.decode()` on `None`: a bundle with no `.md` entry -/
  | attrError
  /-- `wopilock['docid']` on a dict without that key -/
  | keyError
deriving Repr, DecidableEq

/-- The document text `_storagetocodimd` obtains from the GetFile response
(lines 208-214): unzip when the stored name has the `.zmd` extension. -/
def unbundle (env : Env) (filemd : FileMD) : Except PyErr (Option String) :=
  if splitextExt filemd.BaseFileName = ".zmd" then
    match env.getfile_content with
    | .raw _ => .error .badZip
    | .zipb entries => .ok (_unzipattachments entries)
  else .ok (some (bytesStr env.getfile_content))

/-- `_storagetocodimd(filemd, wopisrc, acctok)` (lines 201-233): WOPI
GetFile, unbundle if needed, push the text to CodiMD `/new` (read-only
grants add `mode=locked`), and build the bridge lock from the redirect. -/
def _storagetocodimd (env : Env) (filemd : FileMD) :
    Except PyErr BridgeLock × List Call :=
  if env.getfile_status ≠ 200 then
    (.error (.valueError env.getfile_status), [.wopiGetFile])
  else
    match unbundle env filemd with
    | .error e => (.error e, [.wopiGetFile])
    | .ok mddoc =>
      -- the POST happens before the redirect/lock processing, so it is
      -- in the trace even when a later step raises
      if env.newdoc_status ≠ 302 then
        (.error (.valueError env.newdoc_status),
         [.wopiGetFile, .codimdNew (mddoc.getD "") (!filemd.UserCanWrite)])
      else
        match mddoc with
        | none =>
          -- bundle without a document entry: `mddoc.decode()` raises
          (.error .attrError, [.wopiGetFile, .codimdNew "" (!filemd.UserCanWrite)])
        | some d =>
          (.ok { docid := "/" ++ env.newdoc_docid_seg,
                 filename := filemd.BaseFileName,
                 isslide := d.startsWith "---\ntitle:",
                 isdirty := "false" },
           [.wopiGetFile, .codimdNew d (!filemd.UserCanWrite)])

inductive UrlMode where
  | edit
  | slide
  | publish
deriving Repr, DecidableEq

/-- The redirect the Open handler answers with: which CodiMD mode the URL
points at, the document id in it, and the remaining frame-page inputs
(breadcrumb title, display name, and the `save` flag passed to the unload
hook). -/
structure OpenResp where
  mode : UrlMode
  docid : String
  breadcrumb : String
  displayName : String
  savehook : Bool
deriving Repr, DecidableEq

inductive OpenResult where
  | page (r : OpenResp)
  | httpError (msg : String) (code : Nat)
deriving Repr, DecidableEq

/-- Lines 366-384: edit mode when still writable, else publish or slide
depending on the lock's presentation flag. -/
def buildOpenResp (filemd : FileMD) (wopilock : BridgeLock) : OpenResp :=
  { mode := if filemd.UserCanWrite then .edit
      else if wopilock.isslide then .slide else .publish,
    docid := wopilock.docid,
    breadcrumb := filemd.BreadcrumbDocName,
    displayName := filemd.UserFriendlyName,
    savehook := filemd.UserCanWrite }

/-- Lines 354-360 and 366-385: the unconditional WOPI Lock call of the
writable branch, downgrading to read-only when it fails, then the response
page. -/
def mdOpenLock (env : Env) (filemd : FileMD) (wopilock : BridgeLock)
    (tr : List Call) : Except PyErr OpenResult × List Call :=
  let filemd2 := if env.lock_status ≠ 200
    then { filemd with UserCanWrite := false } else filemd
  (.ok (.page (buildOpenResp filemd2 wopilock)),
   tr ++ [Call.wopiLock (dumpsBridge wopilock)])

/-- Lines 350-352 followed by the Lock call: import the document from
storage (no usable lock was found), then lock. -/
def mdOpenImport (env : Env) (filemd : FileMD) (tr : List Call) :
    Except PyErr OpenResult × List Call :=
  match _storagetocodimd env filemd with
  | (.error e, tr2) => (.error e, tr ++ tr2)
  | (.ok l, tr2) => mdOpenLock env filemd l (tr ++ tr2)

/-- The `/open` handler `mdOpen` (lines 311-385).  The WOPISrc/access-token
query arguments are opaque pass-through context and are not modelled. -/
def mdOpen (env : Env) : Except PyErr OpenResult × List Call :=
  match env.fileinfo with
  | none => (.ok (.httpError "Invalid WOPI context" 404), [.wopiGetFileInfo])
  | some filemd =>
    if filemd.UserCanWrite then
      if env.getlock_status ≠ 200 then
        -- line 335: raise ValueError, uncaught
        (.error (.valueError env.getlock_status),
         [.wopiGetFileInfo, .wopiGetLockCall])
      else
        match env.getlock_header with
        | some hdr =>
          -- line 338 `if wopilock:` — an empty header string is falsy, so
          -- it is never fed to json.loads and goes to the import path
          if hdr = "" then
            mdOpenImport env filemd [.wopiGetFileInfo, .wopiGetLockCall]
          else
            match jsonLoadsBridge hdr with
            | .parsed l =>
              -- lock already held: reuse it (lines 340-342), go to WOPI Lock
              mdOpenLock env filemd l [.wopiGetFileInfo, .wopiGetLockCall]
            | .parsedEmpty =>
              -- json.loads succeeded but the dict is falsy: import path
              mdOpenImport env filemd [.wopiGetFileInfo, .wopiGetLockCall]
            | .failed =>
              -- lines 343-348: unparsable lock, force read-only and annotate
              mdOpenImport env
                { filemd with
                    UserCanWrite := false,
                    BreadcrumbDocName :=
                      filemd.BreadcrumbDocName ++ " (locked by another app)" }
                [.wopiGetFileInfo, .wopiGetLockCall]
        | none => mdOpenImport env filemd [.wopiGetFileInfo, .wopiGetLockCall]
    else
      -- lines 362-364: read-only grant, import without any lock call
      match _storagetocodimd env filemd with
      | (.error e, tr) => (.error e, .wopiGetFileInfo :: tr)
      | (.ok l, tr) => (.ok (.page (buildOpenResp filemd l)), .wopiGetFileInfo :: tr)

/-- Lines 275-305: after a successful content write, Unlock when closing
(failures only logged; attachment cleanup is a local-disk effect), or
refresh the lock with `isdirty = "true"` otherwise (failures only logged). -/
def finishSave (env : Env) (isclose : Bool) (wopilock : BridgeLock)
    (tr : List Call) : Except PyErr (String × Nat) × List Call :=
  if isclose then
    (.ok ("OK", 200), tr ++ [Call.wopiUnlock (dumpsBridge wopilock)])
  else
    (.ok ("OK", 200),
     tr ++ [Call.wopiRefreshLock (dumpsBridge wopilock)
       (dumpsBridge { wopilock with isdirty := "true" })])

/-- `_codimdtostorage(wopisrc, acctok, isclose)` (lines 236-305): the Save
(and non-discarding Close) flow. -/
def _codimdtostorage (env : Env) (isclose : Bool) :
    Except PyErr (String × Nat) × List Call :=
  -- GET_LOCK; ValueError / missing header / JSONDecodeError are caught and
  -- turned into a 404 text response (lines 238-245)
  if env.getlock_status ≠ 200 then
    (.ok ("Failed to fetch WOPI context", 404), [.wopiGetLockCall])
  else
    match env.getlock_header with
    | none => (.ok ("Failed to fetch WOPI context", 404), [.wopiGetLockCall])
    | some hdr =>
      match jsonLoadsBridge hdr with
      | .failed => (.ok ("Failed to fetch WOPI context", 404), [.wopiGetLockCall])
      | .parsedEmpty =>
        -- loads gave a dict without 'docid': KeyError at line 249, uncaught
        (.error .keyError, [.wopiGetLockCall])
      | .parsed wopilock =>
        let tr0 := [Call.wopiGetLockCall, Call.codimdDownload wopilock.docid]
        if env.download_status ≠ 200 then
          (.ok ("Failed to fetch document from CodiMD", env.download_status), tr0)
        else
          let mddoc := env.download_content
          let bundlefile := _getattachments env.fetchatt mddoc
            (wopilock.filename.replace ".zmd" ".md")
          -- lines 257-268: PutFile for the plain file or an existing
          -- bundle, PutRelative for a first-time bundle
          if splitextExt wopilock.filename = ".zmd" ∨ bundlefile = none then
            let contents : Option Bytes :=
              if splitextExt wopilock.filename = ".zmd" then bundlefile.map Bytes.zipb
              else some (Bytes.raw mddoc)
            let tr1 := tr0 ++ [Call.wopiPutFile (dumpsBridge wopilock) contents]
            if env.putfile_status ≠ 200 then
              (.ok ("Error saving the file", env.putfile_status), tr1)
            else finishSave env isclose wopilock tr1
          else
            let tr1 := tr0 ++ [Call.wopiPutRelative (dumpsBridge wopilock)
              (splitextRoot wopilock.filename ++ ".zmd") (bundlefile.getD [])]
            if env.putrel_status ≠ 200 then
              (.ok ("Error saving the file", env.putrel_status), tr1)
            else finishSave env isclose wopilock tr1

/-- The `/close` handler (lines 403-420): an explicit no-save close answers
OK without contacting anything; otherwise Save with `isclose = true`. -/
def mdClose (env : Env) (savearg : String) :
    Except PyErr (String × Nat) × List Call :=
  if savearg = "False" then (.ok ("OK", 200), [])
  else _codimdtostorage env true

/-- A baseline environment where every remote call succeeds: a plain
writable markdown file, no existing lock, one-word content. -/
def envBase : Env :=
  { fileinfo := some { BaseFileName := "test.md", UserCanWrite := true, BreadcrumbDocName := "test.md", UserFriendlyName := "user" },
    getlock_status := 200, getlock_header := none, lock_status := 200,
    getfile_status := 200, getfile_content := .raw "hello",
    newdoc_status := 302, newdoc_docid_seg := "abc123",
    download_status := 200, download_content := "hello",
    putfile_status := 200, putrel_status := 200, refresh_status := 200,
    unlock_status := 200, fetchatt := fun _ => none }

/-- The bridge lock the baseline import produces. -/
def sampleLock : BridgeLock :=
  { docid := "/abc123", filename := "test.md", isslide := false,
    isdirty := "false" }

/-- C8: Save (or non-discarding Close, which delegates here with
`isclose = true`) without a recoverable lock.  Whenever the get-lock call
fails, returns no lock header, or returns a header that does not parse as
JSON, the operation answers the 4xx "Failed to fetch WOPI context" (404)
without fetching the document from the editor store and without writing any
content to the storage backend. -/
theorem save_no_recoverable_lock (env : Env) (isclose : Bool)
    (h : env.getlock_status ≠ 200 ∨ env.getlock_header = none
      ∨ ∃ hdr, env.getlock_header = some hdr ∧ jsonLoadsBridge hdr = .failed) :
    _codimdtostorage env isclose
      = (.ok ("Failed to fetch WOPI context", 404), [Call.wopiGetLockCall])
    ∧ (∀ d, Call.codimdDownload d ∉ (_codimdtostorage env isclose).2)
    ∧ (∀ lk ct, Call.wopiPutFile lk ct ∉ (_codimdtostorage env isclose).2)
    ∧ (∀ lk sg ct, Call.wopiPutRelative lk sg ct ∉ (_codimdtostorage env isclose).2)
    := by
  have heq : _codimdtostorage env isclose
      = (.ok ("Failed to fetch WOPI context", 404), [Call.wopiGetLockCall]) := by
    unfold _codimdtostorage
    by_cases hs : env.getlock_status ≠ 200
    · rw [if_pos hs]
    · rw [if_neg hs]
      rcases h with h1 | h2 | ⟨hdr, hh, hp⟩
      · exact absurd h1 hs
      · rw [h2]
      · rw [hh]
        simp only [hp]
  refine ⟨heq, ?_, ?_, ?_⟩ <;> (rw [heq]; simp)

/-- C8 witness: a failing get-lock call on the baseline environment. -/
theorem save_no_recoverable_lock_witness :
    _codimdtostorage { envBase with getlock_status := 500 } true
      = (.ok ("Failed to fetch WOPI context", 404), [Call.wopiGetLockCall])
    ∧ (∀ d, Call.codimdDownload d
        ∉ (_codimdtostorage { envBase with getlock_status := 500 } true).2)
    ∧ (∀ lk ct, Call.wopiPutFile lk ct
        ∉ (_codimdtostorage { envBase with getlock_status := 500 } true).2)
    ∧ (∀ lk sg ct, Call.wopiPutRelative lk sg ct
        ∉ (_codimdtostorage { envBase with getlock_status := 500 } true).2) :=
  save_no_recoverable_lock { envBase with getlock_status := 500 } true
    (Or.inl (by decide))

/-- C7: non-closing Save lock refresh.  For every Save with
`isclose = false` whose lock parses, whose editor-store fetch succeeds and
whose content write succeeds (whichever of PutFile/PutRelative the flow
selects), the result is OK 200 and the trace holds a RefreshLock call
carrying the old encoded lock and the new one with `isdirty = "true"` —
regardless of the RefreshLock response status, which is left free. -/
theorem save_refresh_lock (env : Env) (hdr : String) (bl : BridgeLock)
    (hst : env.getlock_status = 200) (hh : env.getlock_header = some hdr)
    (hp : jsonLoadsBridge hdr = .parsed bl)
    (hdl : env.download_status = 200)
    (hput : (if splitextExt bl.filename = ".zmd"
        ∨ _getattachments env.fetchatt env.download_content
            (bl.filename.replace ".zmd" ".md") = none
      then env.putfile_status else env.putrel_status) = 200) :
    (_codimdtostorage env false).1 = .ok ("OK", 200)
    ∧ Call.wopiRefreshLock (dumpsBridge bl)
        (dumpsBridge { bl with isdirty := "true" })
      ∈ (_codimdtostorage env false).2 := by
  unfold _codimdtostorage
  rw [if_neg (fun hc => hc hst), hh]
  simp only [hp]
  rw [if_neg (fun hc => hc hdl)]
  by_cases hb : splitextExt bl.filename = ".zmd"
      ∨ _getattachments env.fetchatt env.download_content
          (bl.filename.replace ".zmd" ".md") = none
  · rw [if_pos hb] at hput
    rw [if_pos hb, if_neg (fun hc => hc hput)]
    unfold finishSave
    simp
  · rw [if_neg hb] at hput
    rw [if_neg hb, if_neg (fun hc => hc hput)]
    unfold finishSave
    simp

/-- C7 witness: the baseline save-without-close. -/
theorem save_refresh_lock_witness :
    (_codimdtostorage { envBase with
        getlock_header := some (dumpsBridge sampleLock) } false).1
      = .ok ("OK", 200)
    ∧ Call.wopiRefreshLock (dumpsBridge sampleLock)
        (dumpsBridge { sampleLock with isdirty := "true" })
      ∈ (_codimdtostorage { envBase with
          getlock_header := some (dumpsBridge sampleLock) } false).2 :=
  save_refresh_lock _ (dumpsBridge sampleLock) sampleLock rfl rfl
    (by decide) rfl (by decide)

/-- C6: first-time bundle Save.  For every Save of a document whose stored
file name does not end in `.zmd` and whose fetched editor text contains at
least one attachment reference, the write goes out as a PutRelative call
whose suggested target is the original name's splitext stem plus `.zmd`
(and no in-place PutFile happens); when `isclose = true` a successful write
is followed by an Unlock call carrying the current lock. -/
theorem save_first_time_bundle (env : Env) (hdr : String) (bl : BridgeLock)
    (isclose : Bool)
    (hst : env.getlock_status = 200) (hh : env.getlock_header = some hdr)
    (hp : jsonLoadsBridge hdr = .parsed bl)
    (hdl : env.download_status = 200)
    (hnz : ¬ (".zmd".toList <:+ bl.filename.toList))
    (hatt : findUploads env.download_content ≠ []) :
    ∃ bf, _getattachments env.fetchatt env.download_content
        (bl.filename.replace ".zmd" ".md") = some bf
    ∧ (_codimdtostorage env isclose).2
        = [Call.wopiGetLockCall, Call.codimdDownload bl.docid,
           Call.wopiPutRelative (dumpsBridge bl)
             (splitextRoot bl.filename ++ ".zmd") bf]
          ++ (if env.putrel_status = 200 then
                (if isclose then [Call.wopiUnlock (dumpsBridge bl)]
                 else [Call.wopiRefreshLock (dumpsBridge bl)
                        (dumpsBridge { bl with isdirty := "true" })])
              else [])
    ∧ (∀ lk ct, Call.wopiPutFile lk ct ∉ (_codimdtostorage env isclose).2) := by
  have hext : splitextExt bl.filename ≠ ".zmd" := splitextExt_ne_of_not_suffix _ hnz
  have hbf : ∃ bf, _getattachments env.fetchatt env.download_content
      (bl.filename.replace ".zmd" ".md") = some bf := by
    unfold _getattachments
    match hf : findUploads env.download_content with
    | [] => exact absurd hf hatt
    | a :: atts => exact ⟨_, rfl⟩
  obtain ⟨bf, hbf⟩ := hbf
  have hcond : ¬ (splitextExt bl.filename = ".zmd"
      ∨ _getattachments env.fetchatt env.download_content
          (bl.filename.replace ".zmd" ".md") = none) := by
    rintro (hc | hc)
    · exact hext hc
    · rw [hbf] at hc; cases hc
  have heq : _codimdtostorage env isclose
      = (if env.putrel_status ≠ 200
          then (.ok ("Error saving the file", env.putrel_status),
            [Call.wopiGetLockCall, Call.codimdDownload bl.docid,
             Call.wopiPutRelative (dumpsBridge bl)
               (splitextRoot bl.filename ++ ".zmd") bf])
          else finishSave env isclose bl
            [Call.wopiGetLockCall, Call.codimdDownload bl.docid,
             Call.wopiPutRelative (dumpsBridge bl)
               (splitextRoot bl.filename ++ ".zmd") bf]) := by
    unfold _codimdtostorage
    rw [if_neg (fun hc => hc hst), hh]
    simp only [hp]
    rw [if_neg (fun hc => hc hdl), if_neg hcond, hbf]
    rfl
  refine ⟨bf, hbf, ?_, ?_⟩
  · rw [heq]
    by_cases hw : env.putrel_status = 200
    · rw [if_neg (fun hc => hc hw), if_pos hw]
      unfold finishSave
      cases isclose <;> simp
    · rw [if_pos hw, if_neg hw]
      simp
  · intro lk ct
    rw [heq]
    by_cases hw : env.putrel_status = 200
    · rw [if_neg (fun hc => hc hw)]
      unfold finishSave
      cases isclose <;> simp
    · rw [if_pos hw]
      simp

/-- C6 witness: the baseline document saved with one attachment reference
in its text and `close = true`. -/
theorem save_first_time_bundle_witness :
    ∃ bf, _getattachments
        (fun _ => none) sampleMdText ("test.md".replace ".zmd" ".md") = some bf
    ∧ (_codimdtostorage { envBase with
          getlock_header := some (dumpsBridge sampleLock),
          download_content := sampleMdText } true).2
        = [Call.wopiGetLockCall, Call.codimdDownload "/abc123",
           Call.wopiPutRelative (dumpsBridge sampleLock)
             (splitextRoot "test.md" ++ ".zmd") bf]
          ++ (if (200 : Nat) = 200 then
                (if true then [Call.wopiUnlock (dumpsBridge sampleLock)]
                 else [Call.wopiRefreshLock (dumpsBridge sampleLock)
                        (dumpsBridge { sampleLock with isdirty := "true" })])
              else [])
    ∧ (∀ lk ct, Call.wopiPutFile lk ct
        ∉ (_codimdtostorage { envBase with
            getlock_header := some (dumpsBridge sampleLock),
            download_content := sampleMdText } true).2) :=
  save_first_time_bundle { envBase with
      getlock_header := some (dumpsBridge sampleLock),
      download_content := sampleMdText } (dumpsBridge sampleLock) sampleLock true
    rfl rfl (by decide) rfl (by decide) (by decide)

def isLockCall : Call → Bool
  | .wopiLock _ => true
  | _ => false

/-- C4 counterexample: the claim says an Open that finds an undecodable
lock performs no Lock call on the storage backend; on a concrete writable
document whose stored lock header is the unparsable "garbage", the handler
does issue a WOPI Lock call. -/
theorem open_corrupted_lock_counterexample :
    ((mdOpen { envBase with getlock_header := some "garbage" }).2.any isLockCall)
      = true := by decide

/-- C4 (amended): Open with a corrupted lock.  For every Open of a writable
document where the lock header is present, non-empty (an empty header is
falsy and treated as no lock at line 338) and does not decode, and the
re-import succeeds with lock payload `bl`, the handler forces read-only mode,
appends " (locked by another app)" to the breadcrumb document name, still
serves the document through a read-only (publish/slide) redirect — but,
rather than skipping locking, it re-imports the document and issues a WOPI
Lock call carrying the freshly built lock, whatever `lock_status` the
backend then answers. -/
theorem open_corrupted_lock (env : Env) (fm : FileMD) (hdr : String)
    (bl : BridgeLock)
    (hfi : env.fileinfo = some fm) (hw : fm.UserCanWrite = true)
    (hst : env.getlock_status = 200) (hh : env.getlock_header = some hdr)
    (hne : hdr ≠ "") (hp : jsonLoadsBridge hdr = .failed)
    (him : (_storagetocodimd env { fm with
        UserCanWrite := false,
        BreadcrumbDocName := fm.BreadcrumbDocName ++ " (locked by another app)" }).1
      = .ok bl) :
    mdOpen env
      = (.ok (.page
          { mode := if bl.isslide then .slide else .publish,
            docid := bl.docid,
            breadcrumb := fm.BreadcrumbDocName ++ " (locked by another app)",
            displayName := fm.UserFriendlyName,
            savehook := false }),
         [Call.wopiGetFileInfo, Call.wopiGetLockCall]
           ++ (_storagetocodimd env { fm with
               UserCanWrite := false,
               BreadcrumbDocName :=
                 fm.BreadcrumbDocName ++ " (locked by another app)" }).2
           ++ [Call.wopiLock (dumpsBridge bl)])
    ∧ Call.wopiLock (dumpsBridge bl) ∈ (mdOpen env).2 := by
  have hpair : _storagetocodimd env { fm with
      UserCanWrite := false,
      BreadcrumbDocName := fm.BreadcrumbDocName ++ " (locked by another app)" }
      = (Except.ok bl, (_storagetocodimd env { fm with
          UserCanWrite := false,
          BreadcrumbDocName :=
            fm.BreadcrumbDocName ++ " (locked by another app)" }).2) := by
    rw [← him]
  have heq : mdOpen env
      = (.ok (.page
          { mode := if bl.isslide then .slide else .publish,
            docid := bl.docid,
            breadcrumb := fm.BreadcrumbDocName ++ " (locked by another app)",
            displayName := fm.UserFriendlyName,
            savehook := false }),
         [Call.wopiGetFileInfo, Call.wopiGetLockCall]
           ++ (_storagetocodimd env { fm with
               UserCanWrite := false,
               BreadcrumbDocName :=
                 fm.BreadcrumbDocName ++ " (locked by another app)" }).2
           ++ [Call.wopiLock (dumpsBridge bl)]) := by
    unfold mdOpen
    rw [hfi]
    simp only [hw, if_true, if_neg (fun hc : env.getlock_status ≠ 200 => hc hst)]
    rw [hh]
    simp only [if_neg hne, hp]
    unfold mdOpenImport
    rw [hpair]
    unfold mdOpenLock buildOpenResp
    by_cases hls : env.lock_status ≠ 200
    · rw [if_pos hls]
      simp [List.append_assoc]
    · rw [if_neg hls]
      simp [List.append_assoc]
  refine ⟨heq, ?_⟩
  rw [heq]
  simp

/-- C4 witness: the corrupted-lock Open at the baseline environment with
the unparsable header "garbage", whose import yields `sampleLock` — the
read-only page is served and the WOPI Lock call is in the trace. -/
theorem open_corrupted_lock_witness :
    mdOpen { envBase with getlock_header := some "garbage" }
      = (.ok (.page
          { mode := .publish, docid := "/abc123",
            breadcrumb := "test.md" ++ " (locked by another app)",
            displayName := "user", savehook := false }),
         [Call.wopiGetFileInfo, Call.wopiGetLockCall]
           ++ (_storagetocodimd { envBase with getlock_header := some "garbage" }
               { BaseFileName := "test.md", UserCanWrite := false,
                 BreadcrumbDocName := "test.md" ++ " (locked by another app)",
                 UserFriendlyName := "user" }).2
           ++ [Call.wopiLock (dumpsBridge sampleLock)])
    ∧ Call.wopiLock (dumpsBridge sampleLock)
        ∈ (mdOpen { envBase with getlock_header := some "garbage" }).2 :=
  open_corrupted_lock { envBase with getlock_header := some "garbage" }
    { BaseFileName := "test.md", UserCanWrite := true,
      BreadcrumbDocName := "test.md", UserFriendlyName := "user" }
    "garbage" sampleLock rfl rfl rfl rfl (by decide) (by decide) (by decide)

/-- C5 counterexample: the claim says an Open that finds an existing
decodable lock issues no further Lock call to the storage backend; on a
concrete writable document whose stored lock header is a valid bridge lock,
the handler does issue a WOPI Lock call. -/
theorem open_existing_lock_counterexample :
    ((mdOpen { envBase with
        getlock_header := some (dumpsBridge sampleLock) }).2.any isLockCall)
      = true := by decide

/-- C5 (amended): Open with an existing decodable lock.  For every Open of
a writable document whose lock header decodes to `bl`, the handler reuses
`bl` as the current bridge lock, creates no new document in the editor
store (no CodiMD `/new` call; indeed no import at all — the trace is
exactly GetFileInfo, GetLock, Lock), and serves a page whose document id is
the reused lock's — but it does issue one further WOPI Lock call carrying
the reused lock, rather than none. -/
theorem open_existing_lock (env : Env) (fm : FileMD) (hdr : String)
    (bl : BridgeLock)
    (hfi : env.fileinfo = some fm) (hw : fm.UserCanWrite = true)
    (hst : env.getlock_status = 200) (hh : env.getlock_header = some hdr)
    (hp : jsonLoadsBridge hdr = .parsed bl) :
    (mdOpen env).2 = [Call.wopiGetFileInfo, Call.wopiGetLockCall,
                      Call.wopiLock (dumpsBridge bl)]
    ∧ (∀ ct ml, Call.codimdNew ct ml ∉ (mdOpen env).2)
    ∧ ∃ r, (mdOpen env).1 = .ok (.page r) ∧ r.docid = bl.docid := by
  have heq : mdOpen env
      = (.ok (.page (buildOpenResp
          (if env.lock_status ≠ 200 then { fm with UserCanWrite := false } else fm)
          bl)),
         [Call.wopiGetFileInfo, Call.wopiGetLockCall,
          Call.wopiLock (dumpsBridge bl)]) := by
    unfold mdOpen
    rw [hfi]
    have hne : hdr ≠ "" := by
      intro h
      rw [h, show jsonLoadsBridge "" = .failed from by decide] at hp
      exact LoadsResult.noConfusion hp
    simp only [hw, if_true, if_neg (fun hc : env.getlock_status ≠ 200 => hc hst)]
    rw [hh]
    simp only [if_neg hne, hp]
    unfold mdOpenLock
    rfl
  refine ⟨by rw [heq], ?_, ?_⟩
  · intro ct ml
    rw [heq]
    simp
  · refine ⟨_, by rw [heq], ?_⟩
    unfold buildOpenResp
    by_cases hls : env.lock_status ≠ 200
    · rw [if_pos hls]
    · rw [if_neg hls]

/-- C5 witness: reopening the baseline document while its lock is held. -/
theorem open_existing_lock_witness :
    (mdOpen { envBase with getlock_header := some (dumpsBridge sampleLock) }).2
      = [Call.wopiGetFileInfo, Call.wopiGetLockCall,
         Call.wopiLock (dumpsBridge sampleLock)]
    ∧ (∀ ct ml, Call.codimdNew ct ml
        ∉ (mdOpen { envBase with
            getlock_header := some (dumpsBridge sampleLock) }).2)
    ∧ ∃ r, (mdOpen { envBase with
          getlock_header := some (dumpsBridge sampleLock) }).1 = .ok (.page r)
        ∧ r.docid = sampleLock.docid :=
  open_existing_lock { envBase with getlock_header := some (dumpsBridge sampleLock) }
    { BaseFileName := "test.md", UserCanWrite := true,
      BreadcrumbDocName := "test.md", UserFriendlyName := "user" }
    (dumpsBridge sampleLock) sampleLock rfl rfl rfl rfl (by decide)
